import Mathlib

/-!
# Verification of the e2p parametric/empirical metrics engine

Shallow embedding of the core computational functions of the e2p simulator
(`packages/python/e2p/parametric.py`, `packages/python/e2p/utils.py`,
`packages/python/e2p/continuous.py`, `python/e2p/binary.py`) together with
proofs and refutations of the specification claims about them.

Conventions of the embedding:
* Python floats are modelled as exact numbers: `ℝ` for the analytic
  (Gaussian closed-form) path and `ℚ` for the empirical sample path, whose
  arithmetic on sample proportions is exact field arithmetic.
* Functions that `raise` are modelled with `Except Err`.
* `np.inf` sentinel values (likelihood ratios and their derivatives) are
  modelled as `Option` with `none` standing for infinity.
* External SciPy/NumPy primitives (`stats.norm.cdf`, `np.percentile`,
  `gaussian_kde`, the NumPy RNG) are modelled by their documented
  mathematical behaviour; where a claim does not depend on the numeric
  interior of such a primitive (the KDE/brentq success path, the
  bootstrap resampling stream) it is abstracted as an explicit parameter.
-/

open MeasureTheory

noncomputable section

/-- Standard normal probability density, `exp(-x^2/2) / sqrt(2*pi)`.
This is the density underlying SciPy's `stats.norm` used by the source's
`_normal_pdf`/`_normal_cdf` helpers. -/
def stdNormalPDF (x : ℝ) : ℝ := Real.exp (-x ^ 2 / 2) / Real.sqrt (2 * Real.pi)

/-- Standard normal cumulative distribution Φ, modelling `stats.norm.cdf`. -/
def Phi (x : ℝ) : ℝ := ∫ t in Set.Iic x, stdNormalPDF t

/-- SciPy `stats.norm.cdf` with location and scale, as used by `_normal_cdf`. -/
def normalCDF (x mean std : ℝ) : ℝ := Phi ((x - mean) / std)

/-- The source's `_normal_pdf(x, mean, std)`:
`exp(-0.5*((x-mean)/std)**2) / (std*sqrt(2*pi))`. -/
def normalPDF (x mean std : ℝ) : ℝ :=
  Real.exp (-(1/2 : ℝ) * ((x - mean) / std) ^ 2) / (std * Real.sqrt (2 * Real.pi))

/-- Error taxonomy of the source: `ValueError` raised for a parameter outside
its mathematically valid range is `invalidDomain`; `ValueError` raised for a
structural problem (empty group, mismatched lengths, half-given optional
pair) is `invalidInput`. -/
inductive Err where
  | invalidDomain
  | invalidInput
deriving DecidableEq

/-- `attenuate_d(true_d, kappa) = true_d * sqrt(sin(pi/2 * kappa))`
(parametric.py). -/
def attenuate_d (true_d kappa : ℝ) : ℝ :=
  true_d * Real.sqrt (Real.sin (Real.pi / 2 * kappa))

/-- `compute_sigma_from_icc(icc)`: raises unless `0 < icc <= 1`, else
`1/sqrt(icc)` (parametric.py). -/
def compute_sigma_from_icc (icc : ℝ) : Except Err ℝ :=
  if icc ≤ 0 ∨ icc > 1 then .error .invalidDomain
  else .ok (1 / Real.sqrt icc)

/-- `compute_roc_auc_parametric(cohens_d, sigma1, sigma2)` (parametric.py):
`d_att = d*sqrt(2)/sqrt(sigma1^2+sigma2^2)`, result `Phi(d_att/sqrt(2))`. -/
def compute_roc_auc_parametric (cohens_d sigma1 sigma2 : ℝ) : ℝ :=
  let d_att := cohens_d * Real.sqrt 2 / Real.sqrt (sigma1 ^ 2 + sigma2 ^ 2)
  normalCDF (d_att / Real.sqrt 2) 0 1

/-- `np.linspace(lo, hi, n)` with both endpoints included. -/
def linspace (lo hi : ℝ) (n : ℕ) : List ℝ :=
  (List.range n).map (fun i => lo + (hi - lo) * i / ((n : ℝ) - 1))

/-- Keep only the first point seen for each recall value, mirroring the
`seen_recalls` set in `compute_pr_auc_parametric`; the second argument is the
accumulator of recalls already seen. -/
def dedupByRecall : List (ℝ × ℝ) → List ℝ → List (ℝ × ℝ)
  | [], _ => []
  | p :: rest, seen =>
    if p.1 ∈ seen then dedupByRecall rest seen
    else p :: dedupByRecall rest (p.1 :: seen)

/-- Trapezoidal integration over consecutive (recall, precision) points, as in
the explicit loop of `compute_pr_auc_parametric` and `np.trapezoid`. -/
def trapezoidArea : List (ℝ × ℝ) → ℝ
  | p :: q :: rest => (q.1 - p.1) * ((q.2 + p.2) / 2) + trapezoidArea (q :: rest)
  | _ => 0

/-- Comparison by recall used to model Python's stable `sorted(key=recall)`. -/
def recallLE (p q : ℝ × ℝ) : Prop := p.1 ≤ q.1

instance : DecidableRel recallLE := fun p q => Real.decidableLE p.1 q.1

/-- `compute_pr_auc_parametric(cohens_d, base_rate, sigma1, sigma2, n_points)`
(parametric.py): numerically integrated precision-recall curve for the two
Gaussian populations; result clipped to `[0, 1]`. -/
def compute_pr_auc_parametric (cohens_d base_rate sigma1 sigma2 : ℝ) (n_points : ℕ) : ℝ :=
  if base_rate ≤ 0 then 0
  else if base_rate ≥ 1 then 1
  else
    let min_thresh := min 0 cohens_d - 6 * max sigma1 sigma2
    let max_thresh := max 0 cohens_d + 6 * max sigma1 sigma2
    let thresholds := linspace max_thresh min_thresh n_points
    let pts := thresholds.map (fun t =>
      let recallVal := 1 - normalCDF t cohens_d sigma2
      let fpr := 1 - normalCDF t 0 sigma1
      let numerator := base_rate * recallVal
      let denominator := numerator + (1 - base_rate) * fpr
      let precision := if denominator < 1e-9 then 1 else numerator / denominator
      (recallVal, precision))
    let points := ((0 : ℝ), (1 : ℝ)) :: pts ++ [((1 : ℝ), base_rate)]
    let unique_points := dedupByRecall (List.insertionSort recallLE points) []
    min 1 (max 0 (trapezoidArea unique_points))

/-- `compute_pt_from_threshold(cohens_d, threshold, base_rate, sigma1, sigma2)`
(parametric.py): Bayes posterior of the positive class at the threshold;
`0.5` when both densities vanish. -/
def compute_pt_from_threshold (cohens_d threshold base_rate sigma1 sigma2 : ℝ) : ℝ :=
  let pdf1 := normalPDF threshold 0 sigma1
  let pdf2 := normalPDF threshold cohens_d sigma2
  let numerator := pdf2 * base_rate
  let denominator := pdf1 * (1 - base_rate) + pdf2 * base_rate
  if denominator = 0 then 1 / 2 else numerator / denominator

/-- All threshold-dependent metrics of `compute_binary_metrics`
(parametric.py). The `np.inf` sentinels of the likelihood-ratio family are
modelled as `none`. -/
structure BinaryMetrics where
  fpr : ℝ
  tpr : ℝ
  sensitivity : ℝ
  specificity : ℝ
  ppv : ℝ
  npv : ℝ
  accuracy : ℝ
  balanced_accuracy : ℝ
  f1 : ℝ
  mcc : ℝ
  lr_plus : Option ℝ
  lr_minus : Option ℝ
  dor : Option ℝ
  youden_j : ℝ
  g_mean : ℝ
  kappa : ℝ
  post_test_prob_plus : ℝ
  post_test_prob_minus : ℝ
  delta_nb : ℝ

/-- `compute_binary_metrics(cohens_d, base_rate, threshold, sigma1, sigma2)`
(parametric.py), line for line. In the `pt >= 1` branch of the net-benefit
block the source sets `odds_pt = inf`, hence `nb_predictor = 0.0`,
`nb_treat_all = -inf` and `delta_nb = 0.0 - max(-inf, 0.0) = 0.0`. -/
def compute_binary_metrics (cohens_d base_rate threshold sigma1 sigma2 : ℝ) :
    BinaryMetrics :=
  let fpr := 1 - normalCDF threshold 0 sigma1
  let tpr := 1 - normalCDF threshold cohens_d sigma2
  let sensitivity := tpr
  let specificity := 1 - fpr
  let ppv :=
    if sensitivity = 0 then 1
    else
      let ppv_num := sensitivity * base_rate
      let ppv_denom := ppv_num + (1 - specificity) * (1 - base_rate)
      if ppv_denom > 0 then ppv_num / ppv_denom else 1
  let npv_num := specificity * (1 - base_rate)
  let npv_denom := npv_num + (1 - sensitivity) * base_rate
  let npv := if npv_denom > 0 then npv_num / npv_denom else 1
  let accuracy := sensitivity * base_rate + specificity * (1 - base_rate)
  let balanced_accuracy := (sensitivity + specificity) / 2
  let f1 := if ppv + sensitivity > 0 then 2 * (ppv * sensitivity) / (ppv + sensitivity) else 0
  let tp := sensitivity * base_rate
  let tn := specificity * (1 - base_rate)
  let fp := (1 - specificity) * (1 - base_rate)
  let fn := (1 - sensitivity) * base_rate
  let mcc_num := tp * tn - fp * fn
  let mcc_denom := Real.sqrt ((tp + fp) * (tp + fn) * (tn + fp) * (tn + fn))
  let mcc := if mcc_denom > 0 then mcc_num / mcc_denom else 0
  let lr_plus : Option ℝ :=
    if specificity < 1 then some (sensitivity / (1 - specificity)) else none
  let lr_minus : Option ℝ :=
    if specificity > 0 then some ((1 - sensitivity) / specificity) else none
  let dor : Option ℝ :=
    match lr_plus, lr_minus with
    | some lp, some lm => if lm > 0 then some (lp / lm) else none
    | _, _ => none
  let youden_j := sensitivity + specificity - 1
  let g_mean := Real.sqrt (sensitivity * specificity)
  let p_yes_pred := tp + fp
  let po := accuracy
  let pe_chance := base_rate * p_yes_pred + (1 - base_rate) * (1 - p_yes_pred)
  let kappa_stat := if pe_chance < 1 then (po - pe_chance) / (1 - pe_chance) else 0
  let pre_test_odds : Option ℝ :=
    if base_rate < 1 then some (base_rate / (1 - base_rate)) else none
  let post_test_odds_plus : Option ℝ :=
    match pre_test_odds, lr_plus with
    | some pto, some lp => some (pto * lp)
    | _, _ => none
  let post_test_odds_minus : Option ℝ :=
    match pre_test_odds, lr_minus with
    | some pto, some lm => some (pto * lm)
    | _, _ => none
  let post_test_prob_plus :=
    match post_test_odds_plus with
    | some o => o / (1 + o)
    | none => 1
  let post_test_prob_minus :=
    match post_test_odds_minus with
    | some o => o / (1 + o)
    | none => 1
  let pt := compute_pt_from_threshold cohens_d threshold base_rate sigma1 sigma2
  let delta_nb :=
    if pt < 1 then
      let odds_pt := pt / (1 - pt)
      let nb_predictor := sensitivity * base_rate - (1 - specificity) * (1 - base_rate) * odds_pt
      let nb_treat_all := base_rate - (1 - base_rate) * odds_pt
      nb_predictor - max nb_treat_all 0
    else 0
  { fpr := fpr, tpr := tpr, sensitivity := sensitivity, specificity := specificity,
    ppv := ppv, npv := npv, accuracy := accuracy, balanced_accuracy := balanced_accuracy,
    f1 := f1, mcc := mcc, lr_plus := lr_plus, lr_minus := lr_minus, dor := dor,
    youden_j := youden_j, g_mean := g_mean, kappa := kappa_stat,
    post_test_prob_plus := post_test_prob_plus, post_test_prob_minus := post_test_prob_minus,
    delta_nb := delta_nb }

/-- Bisection loop of `compute_threshold_from_pt` (parametric.py): at most
`fuel` iterations (the source fixes `max_iter = 100`); early return of the
midpoint when the posterior is within `1e-8` of the target; break (returning
the midpoint of the updated interval) when the interval width drops below
`1e-8`; midpoint of the final interval on exhaustion. -/
def bisectPt (cohens_d pt base_rate sigma1 sigma2 : ℝ) :
    ℕ → ℝ → ℝ → ℝ
  | 0, left, right => (left + right) / 2
  | fuel + 1, left, right =>
    let mid := (left + right) / 2
    let pt_mid := compute_pt_from_threshold cohens_d mid base_rate sigma1 sigma2
    if |pt_mid - pt| < 1e-8 then mid
    else
      let left' := if pt_mid < pt then mid else left
      let right' := if pt_mid < pt then right else mid
      if right' - left' < 1e-8 then (left' + right') / 2
      else bisectPt cohens_d pt base_rate sigma1 sigma2 fuel left' right'

/-- `compute_threshold_from_pt(cohens_d, pt, base_rate, sigma1, sigma2)`
(parametric.py): bisection over `[-8*max(s1,s2), 8*max(s1,s2)+d]` with 100
iterations. -/
def compute_threshold_from_pt (cohens_d pt base_rate sigma1 sigma2 : ℝ) : ℝ :=
  let left := -8 * max sigma1 sigma2
  let right := 8 * max sigma1 sigma2 + cohens_d
  bisectPt cohens_d pt base_rate sigma1 sigma2 100 left right

/-- `d_to_odds_ratio(d) = exp(d*pi/sqrt(3))` (parametric.py). -/
def d_to_odds_ratio (d : ℝ) : ℝ := Real.exp (d * Real.pi / Real.sqrt 3)

/-- `d_to_log_odds_ratio(d) = d*pi/sqrt(3)` (parametric.py). -/
def d_to_log_odds_ratio (d : ℝ) : ℝ := d * Real.pi / Real.sqrt 3

/-- `d_to_point_biserial_r(d, base_rate)` (parametric.py). -/
def d_to_point_biserial_r (d base_rate : ℝ) : ℝ :=
  d / Real.sqrt (d ^ 2 + 1 / (base_rate * (1 - base_rate)))

/-- `d_to_cohens_u3(d) = Phi(d)` (parametric.py). -/
def d_to_cohens_u3 (d : ℝ) : ℝ := normalCDF d 0 1

/-- `odds_ratio_to_d(OR)`: raises unless `OR > 0`, else `ln(OR)*sqrt(3)/pi`
(parametric.py). -/
def odds_ratio_to_d (odds_ratio : ℝ) : Except Err ℝ :=
  if odds_ratio ≤ 0 then .error .invalidDomain
  else .ok (Real.log odds_ratio * Real.sqrt 3 / Real.pi)

/-- `log_odds_ratio_to_d(x) = x*sqrt(3)/pi` (parametric.py). -/
def log_odds_ratio_to_d (log_odds_ratio : ℝ) : ℝ :=
  log_odds_ratio * Real.sqrt 3 / Real.pi

/-- The `view` literal of the parametric entry points. -/
inductive View where
  | trueView
  | observedView
deriving DecidableEq

/-- Result record of `e2p_parametric_binary` (the `ParametricResults`
dataclass of parametric.py). -/
structure ParametricResults where
  cohens_d_true : ℝ
  cohens_d_observed : ℝ
  base_rate : ℝ
  threshold_prob : ℝ
  icc1 : ℝ
  icc2 : ℝ
  kappa : ℝ
  odds_ratio : ℝ
  log_odds_ratio : ℝ
  cohens_u3 : ℝ
  point_biserial_r : ℝ
  eta_squared : ℝ
  roc_auc : ℝ
  pr_auc : ℝ
  threshold_value : ℝ
  sensitivity : ℝ
  specificity : ℝ
  ppv : ℝ
  npv : ℝ
  accuracy : ℝ
  balanced_accuracy : ℝ
  f1 : ℝ
  mcc : ℝ
  lr_plus : Option ℝ
  lr_minus : Option ℝ
  dor : Option ℝ
  youden_j : ℝ
  g_mean : ℝ
  kappa_statistic : ℝ
  post_test_prob_plus : ℝ
  post_test_prob_minus : ℝ
  delta_nb : ℝ

/-- `e2p_parametric_binary(cohens_d, base_rate, threshold_prob, icc1, icc2,
kappa, view)` (parametric.py): validates every parameter range first (raising
`ValueError` before any computation), then derives the observed d, the
ICC-driven sigmas, the threshold from `threshold_prob`, and the full metric
battery. The source's 500-point default for the PR-AUC integration is passed
explicitly. -/
def e2p_parametric_binary (cohens_d base_rate threshold_prob icc1 icc2 kappa : ℝ)
    (view : View) : Except Err ParametricResults :=
  if ¬(0 < base_rate ∧ base_rate < 1) then .error .invalidDomain
  else if ¬(0 < threshold_prob ∧ threshold_prob < 1) then .error .invalidDomain
  else if ¬(0 < icc1 ∧ icc1 ≤ 1) then .error .invalidDomain
  else if ¬(0 < icc2 ∧ icc2 ≤ 1) then .error .invalidDomain
  else if ¬(0 < kappa ∧ kappa ≤ 1) then .error .invalidDomain
  else
    let d_observed := attenuate_d cohens_d kappa
    let sigma1E : Except Err ℝ :=
      match view with
      | .trueView => .ok 1
      | .observedView => compute_sigma_from_icc icc1
    let sigma2E : Except Err ℝ :=
      match view with
      | .trueView => .ok 1
      | .observedView => compute_sigma_from_icc icc2
    match sigma1E, sigma2E with
    | .error e, _ => .error e
    | .ok _, .error e => .error e
    | .ok sigma1, .ok sigma2 =>
      let d_eff :=
        match view with
        | .trueView => cohens_d
        | .observedView => d_observed
      let threshold_value :=
        compute_threshold_from_pt d_eff threshold_prob base_rate sigma1 sigma2
      let metrics := compute_binary_metrics d_eff base_rate threshold_value sigma1 sigma2
      let roc_auc := compute_roc_auc_parametric d_eff sigma1 sigma2
      let pr_auc := compute_pr_auc_parametric d_eff base_rate sigma1 sigma2 500
      let odds_ratio := d_to_odds_ratio d_eff
      let log_odds_ratio := d_to_log_odds_ratio d_eff
      let cohens_u3 := d_to_cohens_u3 d_eff
      let pb_r := d_to_point_biserial_r d_eff base_rate
      let eta_squared := pb_r ^ 2
      .ok
        { cohens_d_true := cohens_d, cohens_d_observed := d_observed,
          base_rate := base_rate, threshold_prob := threshold_prob,
          icc1 := icc1, icc2 := icc2, kappa := kappa,
          odds_ratio := odds_ratio, log_odds_ratio := log_odds_ratio,
          cohens_u3 := cohens_u3, point_biserial_r := pb_r,
          eta_squared := eta_squared, roc_auc := roc_auc, pr_auc := pr_auc,
          threshold_value := threshold_value,
          sensitivity := metrics.sensitivity, specificity := metrics.specificity,
          ppv := metrics.ppv, npv := metrics.npv, accuracy := metrics.accuracy,
          balanced_accuracy := metrics.balanced_accuracy, f1 := metrics.f1,
          mcc := metrics.mcc, lr_plus := metrics.lr_plus,
          lr_minus := metrics.lr_minus, dor := metrics.dor,
          youden_j := metrics.youden_j, g_mean := metrics.g_mean,
          kappa_statistic := metrics.kappa,
          post_test_prob_plus := metrics.post_test_prob_plus,
          post_test_prob_minus := metrics.post_test_prob_minus,
          delta_nb := metrics.delta_nb }

/-- `np.mean` of a rational sample. -/
def npMean (l : List ℚ) : ℚ := l.sum / l.length

/-- `np.var(l, ddof=1)`: sum of squared deviations over `n - 1`. -/
def npVar1 (l : List ℚ) : ℚ :=
  ((l.map (fun x => (x - npMean l) ^ 2)).sum) / ((l.length : ℚ) - 1)

/-- Ascending sort, modelling `np.sort`; a stable insertion sort (sorting
numbers, stability is irrelevant to the sorted values). -/
def npSort (l : List ℚ) : List ℚ := List.insertionSort (· ≤ ·) l

/-- `np.median`: middle element of the sorted sample, or the average of the
two middle elements for even length. -/
def npMedian (l : List ℚ) : ℚ :=
  let s := npSort l
  let n := l.length
  if n % 2 = 1 then s.getD (n / 2) 0
  else (s.getD (n / 2 - 1) 0 + s.getD (n / 2) 0) / 2

/-- `np.percentile(l, q)` with the default linear interpolation:
rank `(n-1)*q/100`, interpolating between the two neighbouring order
statistics. -/
def npPercentile (l : List ℚ) (q : ℚ) : ℚ :=
  let s := npSort l
  let rank := ((l.length : ℚ) - 1) * q / 100
  let lo := (⌊rank⌋).toNat
  let frac := rank - ⌊rank⌋
  let a := s.getD lo 0
  let b := s.getD (lo + 1) a
  a + frac * (b - a)

/-- `np.mean(g >= t)`: proportion of the sample at or above `t`. -/
def propGE (g : List ℚ) (t : ℚ) : ℚ :=
  ((g.countP (fun x => decide (t ≤ x)) : ℕ) : ℚ) / g.length

/-- `np.mean(g < t)`: proportion of the sample strictly below `t`. -/
def propLT (g : List ℚ) (t : ℚ) : ℚ :=
  ((g.countP (fun x => decide (x < t)) : ℕ) : ℚ) / g.length

/-- `compute_cohens_d(g1, g2)` (utils.py): standardized mean difference with
pooled SD; returns `0.0` when the pooled SD is zero. -/
def compute_cohens_d (g1 g2 : List ℚ) : ℝ :=
  let n1 := g1.length
  let n2 := g2.length
  let mean1 := npMean g1
  let mean2 := npMean g2
  let var1 := npVar1 g1
  let var2 := npVar1 g2
  let pooled_var := (((n1 : ℚ) - 1) * var1 + ((n2 : ℚ) - 1) * var2) / ((n1 : ℚ) + n2 - 2)
  let pooled_sd := Real.sqrt ((pooled_var : ℚ) : ℝ)
  if pooled_sd = 0 then 0 else (((mean2 - mean1 : ℚ)) : ℝ) / pooled_sd

/-- Pearson correlation (SciPy `stats.pearsonr`, point estimate only):
covariance of deviations over the product of deviation norms. -/
def pearsonR (xs ys : List ℚ) : ℝ :=
  let mx := npMean xs
  let my := npMean ys
  let cov := ((xs.zip ys).map (fun p => (p.1 - mx) * (p.2 - my))).sum
  let sx := (xs.map (fun x => (x - mx) ^ 2)).sum
  let sy := (ys.map (fun y => (y - my) ^ 2)).sum
  ((cov : ℚ) : ℝ) / Real.sqrt (((sx * sy : ℚ)) : ℝ)

/-- `compute_point_biserial_r(g1, g2)` (utils.py): Pearson correlation of the
0/1 group labels with the pooled values. -/
def compute_point_biserial_r (g1 g2 : List ℚ) : ℝ :=
  pearsonR (List.replicate g1.length 0 ++ List.replicate g2.length 1) (g1 ++ g2)

/-- `compute_eta_squared(g1, g2)` (utils.py): one-way ANOVA between/total sum
of squares; `0.0` when the total sum of squares is zero. -/
def compute_eta_squared (g1 g2 : List ℚ) : ℚ :=
  let all_values := g1 ++ g2
  let grand_mean := npMean all_values
  let ss_between := (g1.length : ℚ) * (npMean g1 - grand_mean) ^ 2 +
    (g2.length : ℚ) * (npMean g2 - grand_mean) ^ 2
  let ss_total := (all_values.map (fun x => (x - grand_mean) ^ 2)).sum
  if ss_total = 0 then 0 else ss_between / ss_total

/-- `compute_odds_ratio(g1, g2)` (utils.py): `(exp(d*pi/sqrt 3), d*pi/sqrt 3)`
for the empirical Cohen's d. -/
def compute_odds_ratio (g1 g2 : List ℚ) : ℝ × ℝ :=
  let d := compute_cohens_d g1 g2
  let log_or := d * Real.pi / Real.sqrt 3
  (Real.exp log_or, log_or)

/-- `compute_cohens_u3(g1, g2)` (utils.py): proportion of `g2` strictly above
the median of `g1`. -/
def compute_cohens_u3 (g1 g2 : List ℚ) : ℚ :=
  let median_g1 := npMedian g1
  ((g2.countP (fun x => decide (median_g1 < x)) : ℕ) : ℚ) / g2.length

/-- `compute_roc_auc(g1, g2)` (utils.py): Mann-Whitney count with half-credit
for ties, normalized by `n1*n2`. -/
def compute_roc_auc (g1 g2 : List ℚ) : ℚ :=
  let count := (g2.map (fun x2 =>
    ((g1.countP (fun x1 => decide (x1 < x2)) : ℕ) : ℚ) +
      (1 / 2) * ((g1.countP (fun x1 => decide (x1 = x2)) : ℕ) : ℚ))).sum
  count / ((g1.length : ℚ) * (g2.length : ℚ))

/-- Trapezoidal rule over (recall, precision) pairs, `np.trapezoid`. -/
def trapezoidQ : List (ℚ × ℚ) → ℚ
  | p :: q :: rest => (q.1 - p.1) * ((q.2 + p.2) / 2) + trapezoidQ (q :: rest)
  | _ => 0

/-- Comparison by recall for the `np.argsort(recalls)` reordering. -/
def recallLEQ (p q : ℚ × ℚ) : Prop := p.1 ≤ q.1

instance : DecidableRel recallLEQ := fun p q => inferInstanceAs (Decidable (p.1 ≤ q.1))

/-- `compute_pr_auc(g1, g2, base_rate)` (utils.py): precision/recall pairs at
every unique pooled value taken as threshold (descending), with the boundary
points `(0, 1)` and `(1, base_rate)` added, reordered by recall and
trapezoid-integrated; clipped to `[0, 1]`. -/
def compute_pr_auc (g1 g2 : List ℚ) (base_rate : ℚ) : ℚ :=
  let thresholds := (npSort (g1 ++ g2)).dedup.reverse
  let pairs := thresholds.map (fun t =>
    let sens := propGE g2 t
    let spec := propLT g1 t
    let numerator := sens * base_rate
    let denominator := numerator + (1 - spec) * (1 - base_rate)
    let precision := if denominator > 0 then numerator / denominator else 1
    (sens, precision))
  let withBounds := ((0 : ℚ), (1 : ℚ)) :: pairs ++ [((1 : ℚ), base_rate)]
  let sortedPairs := List.insertionSort recallLEQ withBounds
  min 1 (max 0 (trapezoidQ sortedPairs))

/-- `compute_roc_curve(g1, g2)` (utils.py): (fprs, tprs, thresholds) over the
unique pooled values ascending, with the boundary entries added. -/
def compute_roc_curve (g1 g2 : List ℚ) : List ℚ × List ℚ × List ℚ :=
  let thresholds := (npSort (g1 ++ g2)).dedup
  let fprs := thresholds.map (fun t => propGE g1 t)
  let tprs := thresholds.map (fun t => propGE g2 t)
  (1 :: fprs ++ [0], 1 :: tprs ++ [0],
    (thresholds.headD 0 - 1) :: thresholds ++ [thresholds.getLast?.getD 0 + 1])

/-- `compute_pr_curve(g1, g2, base_rate)` (utils.py): (precisions, recalls,
thresholds) over the unique pooled values descending. -/
def compute_pr_curve (g1 g2 : List ℚ) (base_rate : ℚ) : List ℚ × List ℚ × List ℚ :=
  let thresholds := (npSort (g1 ++ g2)).dedup.reverse
  let precisions := thresholds.map (fun t =>
    let sens := propGE g2 t
    let spec := propLT g1 t
    let numerator := sens * base_rate
    let denominator := numerator + (1 - spec) * (1 - base_rate)
    if denominator > 0 then numerator / denominator else 1)
  let recalls := thresholds.map (fun t => propGE g2 t)
  (precisions, recalls, thresholds)

/-- Models `scipy.stats.gaussian_kde` raising `numpy.linalg.LinAlgError` at
construction: in one dimension the estimated covariance is singular exactly
when the sample variance (ddof=1) vanishes, e.g. for all-identical values. -/
def kdeSingular (g : List ℚ) : Bool := decide (npVar1 g = 0)

/-- `convert_pt_to_threshold(g1, g2, base_rate, pt)` (utils.py). The KDE
construction failure branch returns `np.percentile(concat, 100*(1-pt))`.
The success branch (KDE densities, `brentq` root finding, dense-grid
nearest-match fallback) is decided by SciPy numerics and is abstracted as the
explicit parameter `kdePath`; no claim in this development depends on its
value. -/
def convert_pt_to_threshold (kdePath : List ℚ → List ℚ → ℚ → ℚ → ℚ)
    (g1 g2 : List ℚ) (base_rate pt : ℚ) : ℚ :=
  if kdeSingular g1 || kdeSingular g2 then
    npPercentile (g1 ++ g2) (100 * (1 - pt))
  else
    kdePath g1 g2 base_rate pt

/-- The metric dictionary of `compute_threshold_metrics` (utils.py).
`np.inf` sentinels are `none`; the square-root valued metrics are real. -/
structure ThresholdMetrics where
  sensitivity : ℚ
  specificity : ℚ
  ppv : ℚ
  npv : ℚ
  accuracy : ℚ
  balanced_accuracy : ℚ
  f1 : ℚ
  mcc : ℝ
  lr_plus : Option ℚ
  lr_minus : Option ℚ
  dor : Option ℚ
  youden_j : ℚ
  g_mean : ℝ
  kappa : ℚ
  post_test_prob_plus : ℚ
  post_test_prob_minus : ℚ
  delta_nb : ℚ
deriving DecidableEq

/-- `compute_threshold_metrics(g1, g2, threshold, base_rate, pt)` (utils.py),
line for line. Note: unlike the parametric `compute_binary_metrics`, the
empirical PPV has no special case at zero sensitivity; only the positive
denominator is tested. -/
def compute_threshold_metrics (g1 g2 : List ℚ) (threshold base_rate pt : ℚ) :
    ThresholdMetrics :=
  let sens := propGE g2 threshold
  let spec := propLT g1 threshold
  let ppv_num := sens * base_rate
  let ppv_denom := ppv_num + (1 - spec) * (1 - base_rate)
  let ppv := if ppv_denom > 0 then ppv_num / ppv_denom else 1
  let npv_num := spec * (1 - base_rate)
  let npv_denom := npv_num + (1 - sens) * base_rate
  let npv := if npv_denom > 0 then npv_num / npv_denom else 1
  let accuracy := sens * base_rate + spec * (1 - base_rate)
  let balanced_accuracy := (sens + spec) / 2
  let f1 := if ppv + sens > 0 then 2 * (ppv * sens) / (ppv + sens) else 0
  let tp_rate := sens * base_rate
  let tn_rate := spec * (1 - base_rate)
  let fp_rate := (1 - spec) * (1 - base_rate)
  let fn_rate := (1 - sens) * base_rate
  let mcc_num := tp_rate * tn_rate - fp_rate * fn_rate
  let mcc_denom := Real.sqrt ((((tp_rate + fp_rate) * (tp_rate + fn_rate) *
    (tn_rate + fp_rate) * (tn_rate + fn_rate) : ℚ)) : ℝ)
  let mcc := if mcc_denom > 0 then ((mcc_num : ℚ) : ℝ) / mcc_denom else 0
  let lr_plus : Option ℚ := if spec < 1 then some (sens / (1 - spec)) else none
  let lr_minus : Option ℚ := if spec > 0 then some ((1 - sens) / spec) else none
  let dor : Option ℚ :=
    match lr_plus, lr_minus with
    | _, none => none
    | lp, some lm => if lm > 0 then lp.map (· / lm) else none
  let youden_j := sens + spec - 1
  let g_mean := Real.sqrt (((sens * spec : ℚ)) : ℝ)
  let po := accuracy
  let pe := base_rate * (tp_rate + fp_rate) + (1 - base_rate) * (tn_rate + fn_rate)
  let kappa := if pe < 1 then (po - pe) / (1 - pe) else 0
  let pre_odds := base_rate / (1 - base_rate)
  let post_odds_plus : Option ℚ := lr_plus.map (fun l => pre_odds * l)
  let post_odds_minus : Option ℚ := lr_minus.map (fun l => pre_odds * l)
  let post_prob_plus :=
    match post_odds_plus with
    | some o => o / (1 + o)
    | none => 1
  let post_prob_minus :=
    match post_odds_minus with
    | some o => o / (1 + o)
    | none => 1
  let odds := pt / (1 - pt)
  let nb_predictor := sens * base_rate - (1 - spec) * (1 - base_rate) * odds
  let nb_treat_all := base_rate - (1 - base_rate) * odds
  let delta_nb := nb_predictor - max nb_treat_all 0
  { sensitivity := sens, specificity := spec, ppv := ppv, npv := npv,
    accuracy := accuracy, balanced_accuracy := balanced_accuracy, f1 := f1,
    mcc := mcc, lr_plus := lr_plus, lr_minus := lr_minus, dor := dor,
    youden_j := youden_j, g_mean := g_mean, kappa := kappa,
    post_test_prob_plus := post_prob_plus, post_test_prob_minus := post_prob_minus,
    delta_nb := delta_nb }

/-- The `center` literal of `transform_for_target_reliability`. -/
inductive Center where
  | mean
  | median
deriving DecidableEq

/-- The value part of `transform_for_target_reliability`:
`c + sqrt(r_current/r_target) * (x - c)` elementwise, with `c` the mean or
median of the sample. -/
def transformVals (x : List ℚ) (r_current r_target : ℚ) (center : Center) : List ℝ :=
  let c : ℚ :=
    match center with
    | .mean => npMean x
    | .median => npMedian x
  let scale : ℝ := Real.sqrt ((r_current : ℝ) / (r_target : ℝ))
  x.map (fun xi => ((c : ℚ) : ℝ) + scale * (((xi : ℚ) : ℝ) - ((c : ℚ) : ℝ)))

/-- `transform_for_target_reliability(x, r_current, r_target, center)`
(utils.py): validates the reliability ranges (the finiteness check always
passes for exact rational inputs, and the `center` literal is total by
construction), then rescales deviations around the chosen center. -/
def transform_for_target_reliability (x : List ℚ) (r_current r_target : ℚ)
    (center : Center) : Except Err (List ℝ) :=
  if ¬(0 < r_current ∧ r_current ≤ 1) then .error .invalidDomain
  else if ¬(0 < r_target ∧ r_target ≤ 1) then .error .invalidDomain
  else .ok (transformVals x r_current r_target center)

/-- The `MetricWithCI` dataclass of core.py. -/
structure MetricCI (α : Type) where
  estimate : α
  ci_lower : α
  ci_upper : α
deriving DecidableEq

/-- The percentile levels `(alpha/2*100, (1-alpha/2)*100)` used by
`E2PBinary.compute` for the CI bounds. -/
def ciPcts (ci_level : ℚ) : ℚ × ℚ :=
  let alpha := 1 - ci_level
  (alpha / 2 * 100, (1 - alpha / 2) * 100)

/-- `make_metric_with_ci` for rational-valued metrics (always finite, so the
`np.isfinite` filter keeps every bootstrap value). -/
def mkCIQ (est : ℚ) (boots : List ℚ) (ci_level : ℚ) : MetricCI ℚ :=
  if 0 < boots.length then
    ⟨est, npPercentile boots (ciPcts ci_level).1, npPercentile boots (ciPcts ci_level).2⟩
  else ⟨est, est, est⟩

/-- Ascending sort over real values (`np.sort`). -/
def npSortR (l : List ℝ) : List ℝ := List.insertionSort (· ≤ ·) l

/-- `np.percentile` over real values, linear interpolation. -/
def npPercentileR (l : List ℝ) (q : ℚ) : ℝ :=
  let s := npSortR l
  let rank : ℚ := ((l.length : ℚ) - 1) * q / 100
  let lo := (⌊rank⌋).toNat
  let frac : ℚ := rank - ⌊rank⌋
  let a := s.getD lo 0
  let b := s.getD (lo + 1) a
  a + ((frac : ℚ) : ℝ) * (b - a)

/-- `make_metric_with_ci` for real-valued metrics. -/
def mkCIR (est : ℝ) (boots : List ℝ) (ci_level : ℚ) : MetricCI ℝ :=
  if 0 < boots.length then
    ⟨est, npPercentileR boots (ciPcts ci_level).1, npPercentileR boots (ciPcts ci_level).2⟩
  else ⟨est, est, est⟩

/-- `make_metric_with_ci` for metrics with an `np.inf` sentinel (`none`):
the `np.isfinite` filter drops the infinite bootstrap values, and the CI
collapses to the estimate when no finite value remains. -/
def mkCIOpt (est : Option ℚ) (boots : List (Option ℚ)) (ci_level : ℚ) :
    MetricCI (Option ℚ) :=
  let finite := boots.filterMap id
  if 0 < finite.length then
    ⟨est, some (npPercentile finite (ciPcts ci_level).1),
      some (npPercentile finite (ciPcts ci_level).2)⟩
  else ⟨est, est, est⟩

/-- The flat metric dictionary returned by `E2PBinary._compute_all_metrics`
(python/e2p/binary.py); the `**threshold_metrics` dict-merge is represented
as the nested `threshold_metrics` component. -/
structure AllMetrics where
  cohens_d : ℝ
  r : ℝ
  eta_squared : ℚ
  odds_ratio : ℝ
  log_odds_ratio : ℝ
  cohens_u3 : ℚ
  roc_auc : ℚ
  pr_auc : ℚ
  threshold_value : ℚ
  threshold_metrics : ThresholdMetrics

/-- `E2PBinary._compute_all_metrics(g1, g2, base_rate, pt)`: every point
estimate is a function of exactly these four arguments (plus the abstracted
KDE success path). -/
def computeAllMetrics (kdePath : List ℚ → List ℚ → ℚ → ℚ → ℚ)
    (g1 g2 : List ℚ) (base_rate pt : ℚ) : AllMetrics :=
  let threshold := convert_pt_to_threshold kdePath g1 g2 base_rate pt
  { cohens_d := compute_cohens_d g1 g2,
    r := compute_point_biserial_r g1 g2,
    eta_squared := compute_eta_squared g1 g2,
    odds_ratio := (compute_odds_ratio g1 g2).1,
    log_odds_ratio := (compute_odds_ratio g1 g2).2,
    cohens_u3 := compute_cohens_u3 g1 g2,
    roc_auc := compute_roc_auc g1 g2,
    pr_auc := compute_pr_auc g1 g2 base_rate,
    threshold_value := threshold,
    threshold_metrics := compute_threshold_metrics g1 g2 threshold base_rate pt }

/-- The `E2PBinary` object state after `__init__` (python/e2p/binary.py).
The group element type is a parameter so that the continuous path can hand
over real-valued (reliability-transformed) groups. -/
structure E2PBinary (α : Type) where
  group1 : List α
  group2 : List α
  base_rate : ℚ
  threshold_prob : ℚ
  n_bootstrap : ℕ
  ci_level : ℚ
  random_state : Option ℕ
deriving DecidableEq

/-- `E2PBinary.__init__`: validations in source order. The global
`np.random.seed(random_state)` call only mutates the RNG stream, which is
modelled as the explicit resampling stream passed to `compute`. -/
def E2PBinary.init {α : Type} (group1 group2 : List α) (base_rate threshold_prob : ℚ)
    (n_bootstrap : ℕ) (ci_level : ℚ) (random_state : Option ℕ) :
    Except Err (E2PBinary α) :=
  if group1.length = 0 ∨ group2.length = 0 then .error .invalidInput
  else if ¬(0 < base_rate ∧ base_rate < 1) then .error .invalidDomain
  else if ¬(0 < threshold_prob ∧ threshold_prob < 1) then .error .invalidDomain
  else if ¬(0 < ci_level ∧ ci_level < 1) then .error .invalidDomain
  else .ok ⟨group1, group2, base_rate, threshold_prob, n_bootstrap, ci_level, random_state⟩

/-- The `BinaryResults` dataclass of core.py, over exact rational samples. -/
structure BinaryResultsQ where
  cohens_d : MetricCI ℝ
  cohens_u3 : MetricCI ℚ
  r : MetricCI ℝ
  eta_squared : MetricCI ℚ
  odds_ratio : MetricCI ℝ
  log_odds_ratio : MetricCI ℝ
  roc_auc : MetricCI ℚ
  pr_auc : MetricCI ℚ
  threshold_value : ℚ
  sensitivity : MetricCI ℚ
  specificity : MetricCI ℚ
  ppv : MetricCI ℚ
  npv : MetricCI ℚ
  accuracy : MetricCI ℚ
  balanced_accuracy : MetricCI ℚ
  f1 : MetricCI ℚ
  mcc : MetricCI ℝ
  lr_plus : MetricCI (Option ℚ)
  lr_minus : MetricCI (Option ℚ)
  dor : MetricCI (Option ℚ)
  youden_j : MetricCI ℚ
  g_mean : MetricCI ℝ
  kappa : MetricCI ℚ
  post_test_prob_plus : MetricCI ℚ
  post_test_prob_minus : MetricCI ℚ
  delta_nb : MetricCI ℚ
  roc_curve : List ℚ × List ℚ × List ℚ
  pr_curve : List ℚ × List ℚ × List ℚ
  n_group1 : ℕ
  n_group2 : ℕ
  base_rate : ℚ
  threshold_prob : ℚ

/-- `E2PBinary.compute()` (python/e2p/binary.py): the point estimates are
computed once from the original groups; `n_bootstrap` resamples (the NumPy
RNG draw `np.random.choice(group, size=n, replace=True)` at iteration `i` is
the abstract stream value `rng i`) feed only the percentile CI bounds. -/
def E2PBinary.compute (kdePath : List ℚ → List ℚ → ℚ → ℚ → ℚ)
    (o : E2PBinary ℚ) (rng : ℕ → List ℚ × List ℚ) : BinaryResultsQ :=
  let pe := computeAllMetrics kdePath o.group1 o.group2 o.base_rate o.threshold_prob
  let boots := (List.range o.n_bootstrap).map (fun i =>
    computeAllMetrics kdePath (rng i).1 (rng i).2 o.base_rate o.threshold_prob)
  let cl := o.ci_level
  { cohens_d := mkCIR pe.cohens_d (boots.map (fun b => b.cohens_d)) cl,
    cohens_u3 := mkCIQ pe.cohens_u3 (boots.map (fun b => b.cohens_u3)) cl,
    r := mkCIR pe.r (boots.map (fun b => b.r)) cl,
    eta_squared := mkCIQ pe.eta_squared (boots.map (fun b => b.eta_squared)) cl,
    odds_ratio := mkCIR pe.odds_ratio (boots.map (fun b => b.odds_ratio)) cl,
    log_odds_ratio := mkCIR pe.log_odds_ratio (boots.map (fun b => b.log_odds_ratio)) cl,
    roc_auc := mkCIQ pe.roc_auc (boots.map (fun b => b.roc_auc)) cl,
    pr_auc := mkCIQ pe.pr_auc (boots.map (fun b => b.pr_auc)) cl,
    threshold_value := pe.threshold_value,
    sensitivity := mkCIQ pe.threshold_metrics.sensitivity
      (boots.map (fun b => b.threshold_metrics.sensitivity)) cl,
    specificity := mkCIQ pe.threshold_metrics.specificity
      (boots.map (fun b => b.threshold_metrics.specificity)) cl,
    ppv := mkCIQ pe.threshold_metrics.ppv
      (boots.map (fun b => b.threshold_metrics.ppv)) cl,
    npv := mkCIQ pe.threshold_metrics.npv
      (boots.map (fun b => b.threshold_metrics.npv)) cl,
    accuracy := mkCIQ pe.threshold_metrics.accuracy
      (boots.map (fun b => b.threshold_metrics.accuracy)) cl,
    balanced_accuracy := mkCIQ pe.threshold_metrics.balanced_accuracy
      (boots.map (fun b => b.threshold_metrics.balanced_accuracy)) cl,
    f1 := mkCIQ pe.threshold_metrics.f1
      (boots.map (fun b => b.threshold_metrics.f1)) cl,
    mcc := mkCIR pe.threshold_metrics.mcc
      (boots.map (fun b => b.threshold_metrics.mcc)) cl,
    lr_plus := mkCIOpt pe.threshold_metrics.lr_plus
      (boots.map (fun b => b.threshold_metrics.lr_plus)) cl,
    lr_minus := mkCIOpt pe.threshold_metrics.lr_minus
      (boots.map (fun b => b.threshold_metrics.lr_minus)) cl,
    dor := mkCIOpt pe.threshold_metrics.dor
      (boots.map (fun b => b.threshold_metrics.dor)) cl,
    youden_j := mkCIQ pe.threshold_metrics.youden_j
      (boots.map (fun b => b.threshold_metrics.youden_j)) cl,
    g_mean := mkCIR pe.threshold_metrics.g_mean
      (boots.map (fun b => b.threshold_metrics.g_mean)) cl,
    kappa := mkCIQ pe.threshold_metrics.kappa
      (boots.map (fun b => b.threshold_metrics.kappa)) cl,
    post_test_prob_plus := mkCIQ pe.threshold_metrics.post_test_prob_plus
      (boots.map (fun b => b.threshold_metrics.post_test_prob_plus)) cl,
    post_test_prob_minus := mkCIQ pe.threshold_metrics.post_test_prob_minus
      (boots.map (fun b => b.threshold_metrics.post_test_prob_minus)) cl,
    delta_nb := mkCIQ pe.threshold_metrics.delta_nb
      (boots.map (fun b => b.threshold_metrics.delta_nb)) cl,
    roc_curve := compute_roc_curve o.group1 o.group2,
    pr_curve := compute_pr_curve o.group1 o.group2 o.base_rate,
    n_group1 := o.group1.length,
    n_group2 := o.group2.length,
    base_rate := o.base_rate,
    threshold_prob := o.threshold_prob }

/-- Projection of the `estimate` components of a `BinaryResults` record back
into the metric dictionary shape. -/
def estimatesOf (res : BinaryResultsQ) : AllMetrics :=
  { cohens_d := res.cohens_d.estimate,
    r := res.r.estimate,
    eta_squared := res.eta_squared.estimate,
    odds_ratio := res.odds_ratio.estimate,
    log_odds_ratio := res.log_odds_ratio.estimate,
    cohens_u3 := res.cohens_u3.estimate,
    roc_auc := res.roc_auc.estimate,
    pr_auc := res.pr_auc.estimate,
    threshold_value := res.threshold_value,
    threshold_metrics :=
      { sensitivity := res.sensitivity.estimate,
        specificity := res.specificity.estimate,
        ppv := res.ppv.estimate,
        npv := res.npv.estimate,
        accuracy := res.accuracy.estimate,
        balanced_accuracy := res.balanced_accuracy.estimate,
        f1 := res.f1.estimate,
        mcc := res.mcc.estimate,
        lr_plus := res.lr_plus.estimate,
        lr_minus := res.lr_minus.estimate,
        dor := res.dor.estimate,
        youden_j := res.youden_j.estimate,
        g_mean := res.g_mean.estimate,
        kappa := res.kappa.estimate,
        post_test_prob_plus := res.post_test_prob_plus.estimate,
        post_test_prob_minus := res.post_test_prob_minus.estimate,
        delta_nb := res.delta_nb.estimate } }

/-- NumPy boolean-mask indexing `xs[mask]`. -/
def maskSelect {α : Type} (xs : List α) (mask : List Bool) : List α :=
  ((xs.zip mask).filter (fun p => p.2)).map (fun p => p.1)

/-- The `E2PContinuous` object state after `__init__` (continuous.py). -/
structure E2PContinuous where
  X : List ℚ
  Y : List ℚ
  base_rate : ℚ
  threshold_prob : ℚ
  n_bootstrap : ℕ
  ci_level : ℚ
  random_state : Option ℕ
  y_threshold : ℚ
  is_case : List Bool
  group1 : List ℚ
  group2 : List ℚ
deriving DecidableEq

/-- `E2PContinuous.__init__` (continuous.py): validations in source order,
then the dichotomization of `Y` at its `100*(1-base_rate)` percentile and the
mask split of `X`. -/
def E2PContinuous.init (X Y : List ℚ) (base_rate threshold_prob : ℚ)
    (n_bootstrap : ℕ) (ci_level : ℚ) (random_state : Option ℕ) :
    Except Err E2PContinuous :=
  if X.length ≠ Y.length then .error .invalidInput
  else if X.length = 0 then .error .invalidInput
  else if ¬(0 < base_rate ∧ base_rate < 1) then .error .invalidDomain
  else if ¬(0 < threshold_prob ∧ threshold_prob < 1) then .error .invalidDomain
  else
    let y_threshold := npPercentile Y (100 * (1 - base_rate))
    let is_case := Y.map (fun y => decide (y_threshold ≤ y))
    let group1 := maskSelect X (is_case.map (fun b => !b))
    let group2 := maskSelect X is_case
    if group1.length = 0 ∨ group2.length = 0 then .error .invalidInput
    else
      .ok ⟨X, Y, base_rate, threshold_prob, n_bootstrap, ci_level, random_state,
        y_threshold, is_case, group1, group2⟩

/-- The exclusive-or validation of the optional Y-reliability pair in
`compute_at_reliability`, followed by the (discarded) Y transform. -/
def checkYPair (Y : List ℚ) (r_y_current r_y_target : Option ℚ) (center : Center) :
    Except Err Unit :=
  match r_y_current, r_y_target with
  | some _, none => .error .invalidInput
  | none, some _ => .error .invalidInput
  | some ryc, some ryt =>
    match transform_for_target_reliability Y ryc ryt center with
    | .ok _ => .ok ()
    | .error e => .error e
  | none, none => .ok ()

/-- `E2PContinuous.compute_at_reliability` (continuous.py): transforms `X`,
optionally validates/transforms (and discards) `Y`, splits the transformed
`X` by the stored `is_case` mask, and constructs the `E2PBinary` calculator
whose `compute()` the Python method returns. The method assigns no attribute
of `self`, so the state is returned unchanged alongside the calculator; the
calculator's `compute` only adds the bootstrap CI layer on top of the groups
recorded here. -/
def E2PContinuous.compute_at_reliability (o : E2PContinuous)
    (r_x_current r_x_target : ℚ) (r_y_current r_y_target : Option ℚ)
    (center : Center) : Except Err (E2PContinuous × E2PBinary ℝ) :=
  match transform_for_target_reliability o.X r_x_current r_x_target center with
  | .error e => .error e
  | .ok X_tgt =>
    match checkYPair o.Y r_y_current r_y_target center with
    | .error e => .error e
    | .ok _ =>
      let group1_tgt := maskSelect X_tgt (o.is_case.map (fun b => !b))
      let group2_tgt := maskSelect X_tgt o.is_case
      match E2PBinary.init group1_tgt group2_tgt o.base_rate o.threshold_prob
          o.n_bootstrap o.ci_level o.random_state with
      | .error e => .error e
      | .ok calcBin => .ok (o, calcBin)


/-- Concrete `E2PContinuous` state used to witness the continuous-path
theorems: X = [10,20,30,40], Y = [1,2,3,4], base_rate 1/4 dichotomizes Y at
its 75th percentile 13/4. -/
def contWitnessObj : E2PContinuous :=
  ⟨[10, 20, 30, 40], [1, 2, 3, 4], 1/4, 1/2, 0, 1/2, none, 13/4,
    [false, false, false, true], [10, 20, 30], [40]⟩

/-! ## General lemmas about the standard normal CDF -/

theorem stdNormalPDF_pos (x : ℝ) : 0 < stdNormalPDF x := by
  unfold stdNormalPDF
  have h2π : (0:ℝ) < 2 * Real.pi := by positivity
  exact div_pos (Real.exp_pos _) (Real.sqrt_pos.mpr h2π)

theorem stdNormalPDF_eq (x : ℝ) :
    stdNormalPDF x = Real.exp (-(1/2 : ℝ) * x ^ 2) / Real.sqrt (2 * Real.pi) := by
  unfold stdNormalPDF
  ring_nf

theorem integrable_stdNormalPDF : Integrable stdNormalPDF := by
  have h : Integrable fun x : ℝ => Real.exp (-(1/2 : ℝ) * x ^ 2) :=
    integrable_exp_neg_mul_sq (by norm_num)
  have h' := h.div_const (Real.sqrt (2 * Real.pi))
  refine h'.congr ?_
  filter_upwards with x
  rw [stdNormalPDF_eq]

theorem integral_stdNormalPDF : ∫ x, stdNormalPDF x = 1 := by
  have h : ∫ x : ℝ, Real.exp (-(1/2 : ℝ) * x ^ 2) = Real.sqrt (Real.pi / (1/2)) :=
    integral_gaussian (1/2)
  have hcong : ∫ x, stdNormalPDF x
      = ∫ x : ℝ, Real.exp (-(1/2 : ℝ) * x ^ 2) / Real.sqrt (2 * Real.pi) := by
    congr 1
    funext x
    exact stdNormalPDF_eq x
  rw [hcong, integral_div, h]
  have : Real.pi / (1/2) = 2 * Real.pi := by ring
  rw [this, div_self]
  have h2π : (0:ℝ) < 2 * Real.pi := by positivity
  exact ne_of_gt (Real.sqrt_pos.mpr h2π)

theorem Phi_mono : Monotone Phi := by
  intro a b hab
  unfold Phi
  refine setIntegral_mono_set integrable_stdNormalPDF.integrableOn ?_ ?_
  · filter_upwards with x using le_of_lt (stdNormalPDF_pos x)
  · exact (Set.Iic_subset_Iic.mpr hab).eventuallyLE

theorem Phi_pos (x : ℝ) : 0 < Phi x := by
  unfold Phi
  rw [setIntegral_pos_iff_support_of_nonneg_ae ?_ integrable_stdNormalPDF.integrableOn]
  · have hsupp : Function.support stdNormalPDF = Set.univ := by
      ext t
      simp [Function.mem_support, ne_of_gt (stdNormalPDF_pos t)]
    rw [hsupp, Set.univ_inter]
    simp [Real.volume_Iic]
  · filter_upwards with t using le_of_lt (stdNormalPDF_pos t)

theorem Phi_lt_one (x : ℝ) : Phi x < 1 := by
  have hsplit :
      (∫ t in Set.Iic x, stdNormalPDF t) + ∫ t in Set.Ioi x, stdNormalPDF t
        = ∫ t, stdNormalPDF t :=
    intervalIntegral.integral_Iic_add_Ioi integrable_stdNormalPDF.integrableOn
      integrable_stdNormalPDF.integrableOn
  have hioi : 0 < ∫ t in Set.Ioi x, stdNormalPDF t := by
    rw [setIntegral_pos_iff_support_of_nonneg_ae ?_ integrable_stdNormalPDF.integrableOn]
    · have hsupp : Function.support stdNormalPDF = Set.univ := by
        ext t
        simp [Function.mem_support, ne_of_gt (stdNormalPDF_pos t)]
      rw [hsupp, Set.univ_inter]
      simp [Real.volume_Ioi]
    · filter_upwards with t using le_of_lt (stdNormalPDF_pos t)
  have htot : ∫ t, stdNormalPDF t = 1 := integral_stdNormalPDF
  unfold Phi
  linarith [hsplit, hioi]

theorem normalCDF_pos (x mean std : ℝ) : 0 < normalCDF x mean std := Phi_pos _

theorem normalCDF_lt_one (x mean std : ℝ) : normalCDF x mean std < 1 := Phi_lt_one _

/-! ## C3: effect-size round trips -/

/-- C3: for every real d, `odds_ratio_to_d(d_to_odds_ratio(d))` recovers d
(exactly, hence within any relative tolerance), and the same identity holds
for the log-odds-ratio pair. -/
theorem C3_round_trip (d : ℝ) :
    odds_ratio_to_d (d_to_odds_ratio d) = Except.ok d ∧
    log_odds_ratio_to_d (d_to_log_odds_ratio d) = d := by
  have h3 : Real.sqrt 3 ≠ 0 := ne_of_gt (Real.sqrt_pos.mpr (by norm_num))
  have hπ : Real.pi ≠ 0 := Real.pi_ne_zero
  constructor
  · unfold odds_ratio_to_d d_to_odds_ratio
    rw [if_neg (not_le.mpr (Real.exp_pos _)), Real.log_exp]
    congr 1
    field_simp
  · unfold log_odds_ratio_to_d d_to_log_odds_ratio
    field_simp

/-! ## C4: perfect reliability is a no-op -/

/-- C4: reliability 1.0 is an identity: `attenuate_d(d, 1.0) = d`,
`compute_sigma_from_icc(1.0) = 1.0`, and
`transform_for_target_reliability(x, r, r, center)` returns x unchanged for
every finite x and every r in (0, 1]. -/
theorem C4_perfect_reliability_noop :
    (∀ d : ℝ, attenuate_d d 1 = d) ∧
    compute_sigma_from_icc 1 = Except.ok 1 ∧
    ∀ (x : List ℚ) (r : ℚ) (center : Center), 0 < r → r ≤ 1 →
      transform_for_target_reliability x r r center =
        Except.ok (x.map (fun xi => ((xi : ℚ) : ℝ))) := by
  refine ⟨?_, ?_, ?_⟩
  · intro d
    unfold attenuate_d
    rw [mul_one, Real.sin_pi_div_two, Real.sqrt_one, mul_one]
  · unfold compute_sigma_from_icc
    rw [if_neg (by norm_num), Real.sqrt_one, div_one]
  · intro x r center hr0 hr1
    unfold transform_for_target_reliability
    rw [if_neg (not_not_intro ⟨hr0, hr1⟩), if_neg (not_not_intro ⟨hr0, hr1⟩)]
    have hr : ((r : ℝ)) ≠ 0 := by
      have : (0 : ℝ) < (r : ℝ) := by exact_mod_cast hr0
      exact ne_of_gt this
    have hmap : transformVals x r r center = x.map (fun xi => ((xi : ℚ) : ℝ)) := by
      simp only [transformVals, div_self hr, Real.sqrt_one, one_mul]
      simp
    rw [hmap]

/-- Witness for C4 at concrete inputs. -/
theorem C4_perfect_reliability_noop_witness :
    attenuate_d 3 1 = 3 ∧
    transform_for_target_reliability [1, 2] (1/2) (1/2) Center.mean =
      Except.ok (List.map (fun xi => ((xi : ℚ) : ℝ)) [1, 2]) :=
  ⟨C4_perfect_reliability_noop.1 3,
   C4_perfect_reliability_noop.2.2 [1, 2] (1/2) Center.mean (by norm_num) (by norm_num)⟩

/-! ## C6: analytic ROC-AUC is monotone in d -/

/-- C6: for fixed sigmas, `compute_roc_auc_parametric` is monotone
non-decreasing in Cohen's d. -/
theorem C6_roc_auc_monotone (d1 d2 sigma1 sigma2 : ℝ) (h : d1 ≤ d2) :
    compute_roc_auc_parametric d1 sigma1 sigma2 ≤
      compute_roc_auc_parametric d2 sigma1 sigma2 := by
  unfold compute_roc_auc_parametric normalCDF
  apply Phi_mono
  have h2 : Real.sqrt 2 ≠ 0 := ne_of_gt (Real.sqrt_pos.mpr (by norm_num))
  have key : ∀ d : ℝ, d * Real.sqrt 2 / Real.sqrt (sigma1 ^ 2 + sigma2 ^ 2) / Real.sqrt 2
      = d / Real.sqrt (sigma1 ^ 2 + sigma2 ^ 2) := by
    intro d
    rw [div_right_comm, mul_div_assoc, div_self h2, mul_one]
  simp only [sub_zero, div_one, key]
  rcases eq_or_lt_of_le (Real.sqrt_nonneg (sigma1 ^ 2 + sigma2 ^ 2)) with h0 | h0
  · rw [← h0]
    simp
  · exact (div_le_div_iff_of_pos_right h0).mpr h

/-- Witness for C6 at d1 = 0 ≤ d2 = 1 with unit sigmas. -/
theorem C6_roc_auc_monotone_witness :
    compute_roc_auc_parametric 0 1 1 ≤ compute_roc_auc_parametric 1 1 1 :=
  C6_roc_auc_monotone 0 1 1 1 (by norm_num)

/-! ## C5: bisection threshold solver -/

theorem bisectPt_mem (cohens_d pt base_rate sigma1 sigma2 lo hi : ℝ) :
    ∀ (fuel : ℕ) (l r : ℝ), l ∈ Set.Icc lo hi → r ∈ Set.Icc lo hi →
      bisectPt cohens_d pt base_rate sigma1 sigma2 fuel l r ∈ Set.Icc lo hi := by
  intro fuel
  induction fuel with
  | zero =>
    intro l r hl hr
    simp only [bisectPt]
    exact ⟨by linarith [hl.1, hr.1], by linarith [hl.2, hr.2]⟩
  | succ n ih =>
    intro l r hl hr
    have hmid : (l + r) / 2 ∈ Set.Icc lo hi :=
      ⟨by linarith [hl.1, hr.1], by linarith [hl.2, hr.2]⟩
    by_cases h1 : |compute_pt_from_threshold cohens_d ((l + r) / 2) base_rate sigma1 sigma2 - pt| < 1e-8
    · simp only [bisectPt, if_pos h1]
      exact hmid
    · by_cases hc : compute_pt_from_threshold cohens_d ((l + r) / 2) base_rate sigma1 sigma2 < pt
      · simp only [bisectPt, if_neg h1, if_pos hc]
        split
        · exact ⟨by linarith [hmid.1, hr.1], by linarith [hmid.2, hr.2]⟩
        · exact ih _ _ hmid hr
      · simp only [bisectPt, if_neg h1, if_neg hc]
        split
        · exact ⟨by linarith [hl.1, hmid.1], by linarith [hl.2, hmid.2]⟩
        · exact ih _ _ hl hmid

/-- C5 (amended): the bisection terminates (it is a total function with the
source's 100-iteration budget and 1e-8 stopping rules embedded in
`bisectPt`) and always returns a value between its two initial search bounds,
i.e. in `[min(L, R), max(L, R)]` for `L = -8*max(s1,s2)`,
`R = 8*max(s1,s2)+d`; this is the stated interval `[L, R]` whenever that
interval is nonempty. -/
theorem C5_threshold_in_hull (cohens_d pt base_rate sigma1 sigma2 : ℝ) :
    compute_threshold_from_pt cohens_d pt base_rate sigma1 sigma2 ∈
      Set.Icc (min (-8 * max sigma1 sigma2) (8 * max sigma1 sigma2 + cohens_d))
        (max (-8 * max sigma1 sigma2) (8 * max sigma1 sigma2 + cohens_d)) := by
  unfold compute_threshold_from_pt
  exact bisectPt_mem cohens_d pt base_rate sigma1 sigma2 _ _ 100 _ _
    ⟨min_le_left _ _, le_max_left _ _⟩ ⟨min_le_right _ _, le_max_right _ _⟩

/-- C5 counterexample: for d = -20 with unit sigmas the stated search
interval `[-8*max(s), 8*max(s)+d] = [-8, -12]` is empty, so the returned
value cannot lie in it; the claim fails as stated for every input with
`16*max(s1,s2) + d < 0`. -/
theorem C5_counterexample :
    ¬ compute_threshold_from_pt (-20) (1/2) (1/2) 1 1 ∈
        Set.Icc (-8 * max (1 : ℝ) 1) (8 * max (1 : ℝ) 1 + (-20)) := by
  intro hmem
  have h1 := hmem.1
  have h2 := hmem.2
  rw [max_self] at h1 h2
  linarith

/-! ## C8: parametric entry-point validation -/

theorem compute_sigma_from_icc_ok {icc : ℝ} (h0 : 0 < icc) (h1 : icc ≤ 1) :
    compute_sigma_from_icc icc = .ok (1 / Real.sqrt icc) := by
  unfold compute_sigma_from_icc
  rw [if_neg]
  simp only [not_or, not_le, not_lt]
  exact ⟨h0, h1⟩

/-- C8: `e2p_parametric_binary` succeeds exactly on in-domain inputs, and on
every out-of-domain input it returns the invalid-domain error before
producing any partial result. -/
theorem C8_validation (cohens_d base_rate threshold_prob icc1 icc2 kappa : ℝ)
    (view : View) :
    ((e2p_parametric_binary cohens_d base_rate threshold_prob icc1 icc2 kappa view).isOk
        = true ↔
      (0 < base_rate ∧ base_rate < 1) ∧ (0 < threshold_prob ∧ threshold_prob < 1) ∧
      (0 < icc1 ∧ icc1 ≤ 1) ∧ (0 < icc2 ∧ icc2 ≤ 1) ∧ (0 < kappa ∧ kappa ≤ 1)) ∧
    (¬((0 < base_rate ∧ base_rate < 1) ∧ (0 < threshold_prob ∧ threshold_prob < 1) ∧
        (0 < icc1 ∧ icc1 ≤ 1) ∧ (0 < icc2 ∧ icc2 ≤ 1) ∧ (0 < kappa ∧ kappa ≤ 1)) →
      e2p_parametric_binary cohens_d base_rate threshold_prob icc1 icc2 kappa view
        = .error .invalidDomain) := by
  unfold e2p_parametric_binary
  by_cases h1 : 0 < base_rate ∧ base_rate < 1
  · rw [if_neg (not_not_intro h1)]
    by_cases h2 : 0 < threshold_prob ∧ threshold_prob < 1
    · rw [if_neg (not_not_intro h2)]
      by_cases h3 : 0 < icc1 ∧ icc1 ≤ 1
      · rw [if_neg (not_not_intro h3)]
        by_cases h4 : 0 < icc2 ∧ icc2 ≤ 1
        · rw [if_neg (not_not_intro h4)]
          by_cases h5 : 0 < kappa ∧ kappa ≤ 1
          · rw [if_neg (not_not_intro h5)]
            have hdom : (0 < base_rate ∧ base_rate < 1) ∧
                (0 < threshold_prob ∧ threshold_prob < 1) ∧ (0 < icc1 ∧ icc1 ≤ 1) ∧
                (0 < icc2 ∧ icc2 ≤ 1) ∧ (0 < kappa ∧ kappa ≤ 1) := ⟨h1, h2, h3, h4, h5⟩
            cases view with
            | trueView =>
              exact ⟨iff_of_true rfl hdom, fun hc => absurd hdom hc⟩
            | observedView =>
              rw [compute_sigma_from_icc_ok h3.1 h3.2, compute_sigma_from_icc_ok h4.1 h4.2]
              exact ⟨iff_of_true rfl hdom, fun hc => absurd hdom hc⟩
          · rw [if_pos h5]
            exact ⟨⟨fun hab => by simp [Except.isOk, Except.toBool] at hab,
              fun hc => absurd hc.2.2.2.2 h5⟩, fun _ => rfl⟩
        · rw [if_pos h4]
          exact ⟨⟨fun hab => by simp [Except.isOk, Except.toBool] at hab,
            fun hc => absurd hc.2.2.2.1 h4⟩, fun _ => rfl⟩
      · rw [if_pos h3]
        exact ⟨⟨fun hab => by simp [Except.isOk, Except.toBool] at hab,
          fun hc => absurd hc.2.2.1 h3⟩, fun _ => rfl⟩
    · rw [if_pos h2]
      exact ⟨⟨fun hab => by simp [Except.isOk, Except.toBool] at hab,
        fun hc => absurd hc.2.1 h2⟩, fun _ => rfl⟩
  · rw [if_pos h1]
    exact ⟨⟨fun hab => by simp [Except.isOk, Except.toBool] at hab,
      fun hc => absurd hc.1 h1⟩, fun _ => rfl⟩

/-- Witness for C8: an out-of-domain call (base_rate = 2) returns the
invalid-domain error and an in-domain call succeeds. -/
theorem C8_validation_witness :
    e2p_parametric_binary 1 2 (1/2) 1 1 1 View.observedView
      = Except.error Err.invalidDomain ∧
    (e2p_parametric_binary 1 (1/2) (1/2) 1 1 1 View.observedView).isOk = true := by
  constructor
  · exact (C8_validation 1 2 (1/2) 1 1 1 View.observedView).2 (by norm_num)
  · exact (C8_validation 1 (1/2) (1/2) 1 1 1 View.observedView).1.mpr (by norm_num)

/-! ## C1: the two PPV conventions -/

/-- C1 (amended): the analytic `compute_binary_metrics` applies the
zero-sensitivity and nonpositive-denominator conventions, and over exact
reals (where its sensitivity is strictly positive and, for base_rate in
(0,1), its denominator is strictly positive) always returns the ratio
`sens*base_rate / (sens*base_rate + (1-spec)*(1-base_rate))`; the empirical
`compute_threshold_metrics` applies only the nonpositive-denominator
convention, so with zero sensitivity and a positive denominator it returns
0, not 1 — the two implementations disagree at sensitivity = 0. -/
theorem C1_ppv_conventions :
    (∀ (g1 g2 : List ℚ) (threshold base_rate pt : ℚ),
        propGE g2 threshold = 0 →
        0 < propGE g2 threshold * base_rate + (1 - propLT g1 threshold) * (1 - base_rate) →
        (compute_threshold_metrics g1 g2 threshold base_rate pt).ppv = 0) ∧
    (∀ (cohens_d base_rate threshold sigma1 sigma2 : ℝ),
        0 < base_rate → base_rate < 1 →
        0 < 1 - normalCDF threshold cohens_d sigma2 ∧
        (compute_binary_metrics cohens_d base_rate threshold sigma1 sigma2).ppv =
          ((1 - normalCDF threshold cohens_d sigma2) * base_rate) /
            ((1 - normalCDF threshold cohens_d sigma2) * base_rate +
              (1 - normalCDF threshold 0 sigma1) * (1 - base_rate))) := by
  constructor
  · intro g1 g2 threshold base_rate pt h0 hpos
    simp only [compute_threshold_metrics, h0] at hpos ⊢
    rw [if_pos ?_]
    · simp
    · simpa using hpos
  · intro cohens_d base_rate threshold sigma1 sigma2 hbr0 hbr1
    have hsens : 0 < 1 - normalCDF threshold cohens_d sigma2 :=
      sub_pos.mpr (normalCDF_lt_one _ _ _)
    have hspec : 0 < 1 - normalCDF threshold 0 sigma1 :=
      sub_pos.mpr (normalCDF_lt_one _ _ _)
    refine ⟨hsens, ?_⟩
    simp only [compute_binary_metrics]
    rw [if_neg (by ring_nf; nlinarith [hsens]), if_pos (by nlinarith)]
    ring_nf

/-- C1 counterexample: with `g1 = [0,1]`, `g2 = [0]`, threshold 1 and
base_rate 1/2, the empirical sensitivity is 0 and the PPV denominator is
1/4 > 0, yet `compute_threshold_metrics` returns PPV = 0, not the claimed 1. -/
theorem C1_counterexample :
    (compute_threshold_metrics [0, 1] [0] 1 (1/2) (1/2)).ppv = 0 ∧ ((0 : ℚ) ≠ 1) := by
  constructor
  · norm_num [compute_threshold_metrics, propGE, propLT, List.countP_cons, List.countP_nil]
  · norm_num

/-- Witness for C1 at concrete inputs for both engines. -/
theorem C1_ppv_conventions_witness :
    (compute_threshold_metrics [0, 1] [0] 1 (1/2) (3/4)).ppv = 0 ∧
    (0 < 1 - normalCDF 0 0 1 ∧
      (compute_binary_metrics 0 (1/2) 0 1 1).ppv =
        ((1 - normalCDF 0 0 1) * (1/2)) /
          ((1 - normalCDF 0 0 1) * (1/2) + (1 - normalCDF 0 0 1) * (1 - 1/2))) := by
  constructor
  · exact C1_ppv_conventions.1 [0, 1] [0] 1 (1/2) (3/4)
      (by norm_num [propGE, List.countP_cons, List.countP_nil])
      (by norm_num [propGE, propLT, List.countP_cons, List.countP_nil])
  · exact C1_ppv_conventions.2 0 (1/2) 0 1 1 (by norm_num) (by norm_num)

/-! ## C2: KDE failure fallback of the empirical threshold solver -/

/-- C2 (amended): when the KDE construction fails with a singular-covariance
error (one group's values all identical), `convert_pt_to_threshold` does not
raise but returns the `100*(1-pt)` linear-interpolation percentile of the
pooled data — a threshold-probability-weighted percentile that does not
involve base_rate. -/
theorem C2_kde_fallback (kdePath : List ℚ → List ℚ → ℚ → ℚ → ℚ)
    (g1 g2 : List ℚ) (base_rate pt : ℚ)
    (h : kdeSingular g1 = true ∨ kdeSingular g2 = true) :
    convert_pt_to_threshold kdePath g1 g2 base_rate pt =
      npPercentile (g1 ++ g2) (100 * (1 - pt)) := by
  unfold convert_pt_to_threshold
  rcases h with h | h <;> simp [h]

/-- C2 counterexample: with `g1 = [0,0]`, `g2 = [1,1]`, pt = 1/2 the fallback
returns the 50th percentile 1/2 of the pooled data regardless of whether
base_rate is 1/10 or 9/10, while the base_rate-weighted percentile
(at level `100*(1-base_rate) = 90`) is 1 ≠ 1/2. -/
theorem C2_counterexample :
    convert_pt_to_threshold (fun _ _ _ _ => 0) [0, 0] [1, 1] (1/10) (1/2) = 1/2 ∧
    convert_pt_to_threshold (fun _ _ _ _ => 0) [0, 0] [1, 1] (9/10) (1/2) = 1/2 ∧
    npPercentile ([0, 0] ++ [1, 1]) (100 * (1 - 1/10)) = 1 ∧
    ((1 : ℚ)/2 ≠ 1) := by
  refine ⟨?_, ?_, ?_, by norm_num⟩ <;>
    norm_num [convert_pt_to_threshold, kdeSingular, npVar1, npMean, npPercentile,
      npSort, List.insertionSort, List.orderedInsert, Int.toNat,
      List.getD_cons_zero, List.getD_cons_succ, List.getElem_cons_succ,
      List.getElem_cons_zero]

/-- Witness for C2 at a concrete singular group. -/
theorem C2_kde_fallback_witness :
    (kdeSingular [0, 0] = true ∨ kdeSingular [5] = true) ∧
    convert_pt_to_threshold (fun _ _ _ _ => 0) [0, 0] [5] (1/10) (3/4) =
      npPercentile ([0, 0] ++ [5]) (100 * (1 - 3/4)) :=
  ⟨Or.inl (by norm_num [kdeSingular, npVar1, npMean]),
   C2_kde_fallback (fun _ _ _ _ => 0) [0, 0] [5] (1/10) (3/4)
     (Or.inl (by norm_num [kdeSingular, npVar1, npMean]))⟩

/-! ## C10: zero pooled variance -/

theorem npMean_const {l : List ℚ} {a : ℚ} (h : ∀ x ∈ l, x = a) (hne : l ≠ []) :
    npMean l = a := by
  have hn : (l.length : ℚ) ≠ 0 := by
    have hpos : 0 < l.length := List.length_pos.mpr hne
    exact_mod_cast Nat.pos_iff_ne_zero.mp hpos
  unfold npMean
  rw [List.sum_eq_card_nsmul l a h, nsmul_eq_mul, mul_comm, mul_div_assoc, div_self hn, mul_one]

theorem npVar1_const {l : List ℚ} {a : ℚ} (h : ∀ x ∈ l, x = a) (hne : l ≠ []) :
    npVar1 l = 0 := by
  unfold npVar1
  have hz : (l.map (fun x => (x - npMean l) ^ 2)).sum = 0 := by
    apply List.sum_eq_zero
    intro y hy
    rcases List.mem_map.mp hy with ⟨x, hx, rfl⟩
    rw [h x hx, npMean_const h hne]
    ring
  rw [hz, zero_div]

/-- C10: for constant groups of at least two elements each (zero pooled SD),
`compute_cohens_d` returns exactly 0 and never divides by zero. -/
theorem C10_zero_variance (g1 g2 : List ℚ) (a b : ℚ)
    (h1 : ∀ x ∈ g1, x = a) (h2 : ∀ x ∈ g2, x = b)
    (hl1 : 2 ≤ g1.length) (hl2 : 2 ≤ g2.length) :
    compute_cohens_d g1 g2 = 0 := by
  have hne1 : g1 ≠ [] := by
    intro hcon
    rw [hcon] at hl1
    simp at hl1
  have hne2 : g2 ≠ [] := by
    intro hcon
    rw [hcon] at hl2
    simp at hl2
  simp only [compute_cohens_d, npVar1_const h1 hne1, npVar1_const h2 hne2]
  norm_num

/-- Witness for C10 at two constant two-element groups. -/
theorem C10_zero_variance_witness : compute_cohens_d [3, 3] [5, 5] = 0 :=
  C10_zero_variance [3, 3] [5, 5] 3 5 (by simp) (by simp) (by norm_num) (by norm_num)

/-! ## C9: point estimates are independent of the bootstrap configuration -/

theorem mkCIQ_estimate (est : ℚ) (boots : List ℚ) (cl : ℚ) :
    (mkCIQ est boots cl).estimate = est := by
  unfold mkCIQ
  split <;> rfl

theorem mkCIR_estimate (est : ℝ) (boots : List ℝ) (cl : ℚ) :
    (mkCIR est boots cl).estimate = est := by
  unfold mkCIR
  split <;> rfl

theorem mkCIOpt_estimate (est : Option ℚ) (boots : List (Option ℚ)) (cl : ℚ) :
    (mkCIOpt est boots cl).estimate = est := by
  simp only [mkCIOpt]
  split
  all_goals rfl

theorem E2PBinary_init_ok {α : Type} {g1 g2 : List α} {br pt : ℚ} {nb : ℕ}
    {ci : ℚ} {rs : Option ℕ} {o : E2PBinary α}
    (h : E2PBinary.init g1 g2 br pt nb ci rs = .ok o) :
    o = ⟨g1, g2, br, pt, nb, ci, rs⟩ := by
  unfold E2PBinary.init at h
  split_ifs at h
  simp_all

theorem estimatesOf_compute (kdePath : List ℚ → List ℚ → ℚ → ℚ → ℚ)
    (o : E2PBinary ℚ) (rng : ℕ → List ℚ × List ℚ) :
    estimatesOf (E2PBinary.compute kdePath o rng) =
      computeAllMetrics kdePath o.group1 o.group2 o.base_rate o.threshold_prob := by
  simp only [estimatesOf, E2PBinary.compute, mkCIQ_estimate, mkCIR_estimate, mkCIOpt_estimate]

/-- C9: the estimate component of every metric returned by
`E2PBinary.compute` is a function of (group1, group2, base_rate,
threshold_prob) alone: two calculators built from the same data but different
n_bootstrap, ci_level and random_state, run with different resampling
streams, produce identical estimate fields. -/
theorem C9_estimates_deterministic (kdePath : List ℚ → List ℚ → ℚ → ℚ → ℚ)
    (g1 g2 : List ℚ) (br pt : ℚ) (nb nb2 : ℕ) (ci ci2 : ℚ) (rs rs2 : Option ℕ)
    (o o2 : E2PBinary ℚ) (rng rng2 : ℕ → List ℚ × List ℚ)
    (h : E2PBinary.init g1 g2 br pt nb ci rs = .ok o)
    (h2 : E2PBinary.init g1 g2 br pt nb2 ci2 rs2 = .ok o2) :
    estimatesOf (E2PBinary.compute kdePath o rng) =
      estimatesOf (E2PBinary.compute kdePath o2 rng2) := by
  rw [estimatesOf_compute, estimatesOf_compute, E2PBinary_init_ok h, E2PBinary_init_ok h2]

/-- Witness for C9: same groups, different bootstrap count, CI level, seed
and resampling stream. -/
theorem C9_estimates_deterministic_witness :
    E2PBinary.init ([0, 1] : List ℚ) [1, 2] (1/2) (1/2) 3 (1/2) none =
      Except.ok ⟨[0, 1], [1, 2], 1/2, 1/2, 3, 1/2, none⟩ ∧
    E2PBinary.init ([0, 1] : List ℚ) [1, 2] (1/2) (1/2) 7 (3/4) (some 5) =
      Except.ok ⟨[0, 1], [1, 2], 1/2, 1/2, 7, 3/4, some 5⟩ ∧
    estimatesOf (E2PBinary.compute (fun _ _ _ _ => 0)
        ⟨[0, 1], [1, 2], 1/2, 1/2, 3, 1/2, none⟩ (fun _ => ([], []))) =
      estimatesOf (E2PBinary.compute (fun _ _ _ _ => 0)
        ⟨[0, 1], [1, 2], 1/2, 1/2, 7, 3/4, some 5⟩ (fun _ => ([0], [0]))) := by
  have hA : E2PBinary.init ([0, 1] : List ℚ) [1, 2] (1/2) (1/2) 3 (1/2) none =
      Except.ok ⟨[0, 1], [1, 2], 1/2, 1/2, 3, 1/2, none⟩ := by
    norm_num [E2PBinary.init]
  have hB : E2PBinary.init ([0, 1] : List ℚ) [1, 2] (1/2) (1/2) 7 (3/4) (some 5) =
      Except.ok ⟨[0, 1], [1, 2], 1/2, 1/2, 7, 3/4, some 5⟩ := by
    norm_num [E2PBinary.init]
  exact ⟨hA, hB, C9_estimates_deterministic (fun _ _ _ _ => 0) [0, 1] [1, 2]
    (1/2) (1/2) 3 7 (1/2) (3/4) none (some 5) _ _
    (fun _ => ([], [])) (fun _ => ([0], [0])) hA hB⟩

/-! ## C7: split stability of the continuous reliability transform -/

theorem maskSelect_map {α β : Type} (f : α → β) :
    ∀ (xs : List α) (mask : List Bool),
      maskSelect (xs.map f) mask = (maskSelect xs mask).map f := by
  intro xs
  induction xs with
  | nil => intro mask; rfl
  | cons x xs ih =>
    intro mask
    cases mask with
    | nil => rfl
    | cons b bs =>
      have ihb := ih bs
      simp only [maskSelect, List.map_cons, List.zip_cons_cons, List.filter_cons] at ihb ⊢
      cases b
      · simpa using ihb
      · simpa using ihb

theorem transformVals_mask_length (x : List ℚ) (rc rt : ℚ) (c : Center)
    (m : List Bool) :
    (maskSelect (transformVals x rc rt c) m).length = (maskSelect x m).length := by
  simp only [transformVals]
  rw [maskSelect_map]
  exact List.length_map _ _

theorem E2PContinuous_init_ok {X Y : List ℚ} {br pt : ℚ} {nb : ℕ} {ci : ℚ}
    {rs : Option ℕ} {o : E2PContinuous}
    (h : E2PContinuous.init X Y br pt nb ci rs = .ok o) :
    o = ⟨X, Y, br, pt, nb, ci, rs, npPercentile Y (100 * (1 - br)),
        Y.map (fun y => decide (npPercentile Y (100 * (1 - br)) ≤ y)),
        maskSelect X ((Y.map (fun y => decide (npPercentile Y (100 * (1 - br)) ≤ y))).map
          (fun b => !b)),
        maskSelect X (Y.map (fun y => decide (npPercentile Y (100 * (1 - br)) ≤ y)))⟩ ∧
      (0 < br ∧ br < 1) ∧ (0 < pt ∧ pt < 1) ∧
      o.group1.length ≠ 0 ∧ o.group2.length ≠ 0 := by
  simp only [E2PContinuous.init] at h
  split_ifs at h with hlen hzero hbr hpt hg
  injection h with h
  subst h
  push_neg at hg
  exact ⟨rfl, hbr, hpt, hg.1, hg.2⟩

/-- C7: `compute_at_reliability` reuses the case/control mask computed at
construction from the original Y (it never recomputes the split from the
transformed data), splits the transformed X by exactly that mask, and leaves
the stored state — in particular Y, y_threshold, is_case, base_rate and
threshold_prob — unchanged. -/
theorem C7_split_stability (X Y : List ℚ) (br pt : ℚ) (nb : ℕ) (ci : ℚ)
    (rs : Option ℕ) (o : E2PContinuous) (rxc rxt : ℚ) (center : Center)
    (hinit : E2PContinuous.init X Y br pt nb ci rs = .ok o)
    (hc1 : 0 < rxc) (hc2 : rxc ≤ 1) (ht1 : 0 < rxt) (ht2 : rxt ≤ 1)
    (hci1 : 0 < ci) (hci2 : ci < 1) :
    o.is_case = Y.map (fun y => decide (npPercentile Y (100 * (1 - br)) ≤ y)) ∧
    o.Y = Y ∧ o.y_threshold = npPercentile Y (100 * (1 - br)) ∧
    o.base_rate = br ∧ o.threshold_prob = pt ∧
    E2PContinuous.compute_at_reliability o rxc rxt none none center =
      Except.ok (o,
        ⟨maskSelect (transformVals X rxc rxt center) (o.is_case.map (fun b => !b)),
         maskSelect (transformVals X rxc rxt center) o.is_case,
         br, pt, nb, ci, rs⟩) := by
  obtain ⟨ho, hbr, hpt, hg1, hg2⟩ := E2PContinuous_init_ok hinit
  subst ho
  refine ⟨rfl, rfl, rfl, rfl, rfl, ?_⟩
  have htr : transform_for_target_reliability X rxc rxt center =
      .ok (transformVals X rxc rxt center) := by
    unfold transform_for_target_reliability
    rw [if_neg (not_not_intro ⟨hc1, hc2⟩), if_neg (not_not_intro ⟨ht1, ht2⟩)]
  have hinitB : E2PBinary.init
      (maskSelect (transformVals X rxc rxt center)
        ((Y.map (fun y => decide (npPercentile Y (100 * (1 - br)) ≤ y))).map (fun b => !b)))
      (maskSelect (transformVals X rxc rxt center)
        (Y.map (fun y => decide (npPercentile Y (100 * (1 - br)) ≤ y))))
      br pt nb ci rs =
      .ok ⟨maskSelect (transformVals X rxc rxt center)
        ((Y.map (fun y => decide (npPercentile Y (100 * (1 - br)) ≤ y))).map (fun b => !b)),
        maskSelect (transformVals X rxc rxt center)
          (Y.map (fun y => decide (npPercentile Y (100 * (1 - br)) ≤ y))),
        br, pt, nb, ci, rs⟩ := by
    unfold E2PBinary.init
    rw [if_neg ?hne, if_neg (not_not_intro hbr), if_neg (not_not_intro hpt),
      if_neg (not_not_intro ⟨hci1, hci2⟩)]
    case hne =>
      push_neg
      rw [transformVals_mask_length, transformVals_mask_length]
      exact ⟨hg1, hg2⟩
  simp only [E2PContinuous.compute_at_reliability]
  rw [htr]
  simp only [checkYPair]
  rw [hinitB]

/-- Witness for C7 at the concrete continuous state `contWitnessObj`. -/
theorem C7_split_stability_witness :
    E2PContinuous.init [10, 20, 30, 40] [1, 2, 3, 4] (1/4) (1/2) 0 (1/2) none =
      Except.ok contWitnessObj ∧
    E2PContinuous.compute_at_reliability contWitnessObj 1 1 none none Center.mean =
      Except.ok (contWitnessObj,
        ⟨maskSelect (transformVals [10, 20, 30, 40] 1 1 Center.mean)
          (contWitnessObj.is_case.map (fun b => !b)),
         maskSelect (transformVals [10, 20, 30, 40] 1 1 Center.mean)
          contWitnessObj.is_case,
         1/4, 1/2, 0, 1/2, none⟩) := by
  have hinit : E2PContinuous.init [10, 20, 30, 40] [1, 2, 3, 4] (1/4) (1/2) 0 (1/2) none =
      Except.ok contWitnessObj := by
    norm_num [E2PContinuous.init, contWitnessObj, maskSelect, npPercentile, npSort,
      List.insertionSort, List.orderedInsert, Int.toNat,
      List.getD_cons_zero, List.getD_cons_succ, List.getElem_cons_succ,
      List.getElem_cons_zero]
  refine ⟨hinit, ?_⟩
  have h := C7_split_stability [10, 20, 30, 40] [1, 2, 3, 4] (1/4) (1/2) 0 (1/2) none
    contWitnessObj 1 1 Center.mean hinit (by norm_num) (by norm_num) (by norm_num)
    (by norm_num) (by norm_num) (by norm_num)
  exact h.2.2.2.2.2

end
